import Mathlib

/-!
Verification of the Timeline Clip & Caption Alignment Model of a
browser-based video editor.  The definitions below are a shallow
embedding of the core logic of `src/App.tsx`:

* `EditorClip` / `EditorState` mirror the clip record and editor state
  (`src/types`, used throughout `App.tsx`); times are rationals.
* `activeClip`, `firstVideo`, `playerSrc`, `activeCaptions` embed the
  timeline projector (lines 239-254).
* `capOverlap`, `alignCap`, `alignLoop`, `alignCaptions`,
  `handleAutoCaptionsCore` embed the caption aligner inside
  `handleAutoCaptions` (lines 162-212).
* `handleDelete` (lines 121-129) and `addToTimeline` (lines 222-236)
  embed the mutation operations.
-/

inductive ClipType where
  | video
  | image
  | text
deriving DecidableEq, Repr

/-- A clip on the timeline, mirroring `EditorClip` in the source:
`id`, `type`, `src`, `name`, `duration`, `startTime`, `offset`. -/
structure EditorClip where
  id : String
  type : ClipType
  src : String
  name : String
  duration : ℚ
  startTime : ℚ
  offset : ℚ
deriving DecidableEq, Repr

/-- A caption span in source-media time, as returned by the
transcription collaborator: `{ startTime, endTime, text }`. -/
structure Caption where
  startTime : ℚ
  endTime : ℚ
  text : String
deriving DecidableEq, Repr

/-- The editor state of `App.tsx`:
`{ currentTime, duration, isPlaying, selectedClipId, clips, zoomLevel }`. -/
structure EditorState where
  currentTime : ℚ
  duration : ℚ
  isPlaying : Bool
  selectedClipId : Option String
  clips : List EditorClip
  zoomLevel : ℚ
deriving DecidableEq, Repr

/-! ## Timeline projector (App.tsx lines 239-254) -/

/-- The predicate of the `find` on line 239:
`currentTime >= c.startTime && currentTime < c.startTime + c.duration
&& c.type === 'video'`. -/
def isActiveVideo (t : ℚ) (c : EditorClip) : Bool :=
  decide (c.startTime ≤ t ∧ t < c.startTime + c.duration ∧ c.type = ClipType.video)

/-- Embeds `const activeClip = editorState.clips.find(...)` (line 239). -/
def activeClip (s : EditorState) : Option EditorClip :=
  s.clips.find? (isActiveVideo s.currentTime)

/-- Embeds `editorState.clips.find(c => c.type === 'video')` (line 245). -/
def firstVideo (clips : List EditorClip) : Option EditorClip :=
  clips.find? (fun c => decide (c.type = ClipType.video))

/-- The clip-level content of line 245: the active clip if any,
otherwise the first video-kind clip of the store. -/
def activeVisualClip (s : EditorState) : Option EditorClip :=
  match activeClip s with
  | some c => some c
  | none => firstVideo s.clips

/-- Embeds `const playerSrc = activeClip ? activeClip.src :
(editorState.clips.find(c => c.type === 'video')?.src || null)` (line 245).
The `|| null` coerces an empty-string `src` in the fallback branch to
`null`, which the embedding reproduces. -/
def playerSrc (s : EditorState) : Option String :=
  match activeClip s with
  | some c => some c.src
  | none =>
    match firstVideo s.clips with
    | some c => if c.src = "" then none else some c.src
    | none => none

/-- The predicate of the caption filter on lines 249-253:
`c.type === 'text' && currentTime >= c.startTime &&
currentTime < c.startTime + c.duration`. -/
def isActiveText (t : ℚ) (c : EditorClip) : Bool :=
  decide (c.type = ClipType.text ∧ c.startTime ≤ t ∧ t < c.startTime + c.duration)

/-- Embeds `const activeCaptions = editorState.clips.filter(...).map(c => c.name)`
(lines 248-254). -/
def activeCaptions (s : EditorState) : List String :=
  (s.clips.filter (isActiveText s.currentTime)).map (fun c => c.name)

/-! ## Caption aligner (App.tsx lines 162-212) -/

/-- The overlap filter of lines 170-176:
`cap.startTime < selectedClip.offset + selectedClip.duration &&
cap.endTime > selectedClip.offset`. -/
def capOverlap (sc : EditorClip) (cap : Caption) : Bool :=
  decide (cap.startTime < sc.offset + sc.duration ∧ sc.offset < cap.endTime)

/-- The body of the `.map((cap, index) => ...)` of lines 177-201:
re-project to clip-local time, clamp, drop if the clamped duration is
non-positive, otherwise build the text clip.  `now` stands for the
`Date.now()` part of the generated id. -/
def alignCap (now : String) (sc : EditorClip) (idx : Nat) (cap : Caption) :
    Option EditorClip :=
  let relativeStart := cap.startTime - sc.offset
  let relativeEnd := cap.endTime - sc.offset
  let startInClip := max 0 relativeStart
  let endInClip := min sc.duration relativeEnd
  let duration := endInClip - startInClip
  if duration ≤ 0 then none
  else some
    { id := "caption-" ++ now ++ "-" ++ toString idx
      type := ClipType.text
      src := ""
      name := cap.text
      duration := duration
      startTime := sc.startTime + startInClip
      offset := 0 }

/-- The `.map((cap, index) => ...).filter(Boolean)` chain applied to the
already-filtered captions: `idx` is the position within the filtered
list, and `null` results are dropped. -/
def alignLoop (now : String) (sc : EditorClip) : Nat → List Caption → List EditorClip
  | _, [] => []
  | idx, cap :: rest =>
    match alignCap now sc idx cap with
    | some c => c :: alignLoop now sc (idx + 1) rest
    | none => alignLoop now sc (idx + 1) rest

/-- Embeds `const newClips = captions.filter(...).map(...).filter(Boolean)`
(lines 169-202). -/
def alignCaptions (now : String) (sc : EditorClip) (captions : List Caption) :
    List EditorClip :=
  alignLoop now sc 0 (captions.filter (capOverlap sc))

/-- The three observable outcomes of `handleAutoCaptions`: the
`captions.length === 0` alert (line 163), the `newClips.length === 0`
alert (line 205), and the successful append (lines 209-212). -/
inductive CaptionOutcome where
  | emptyInput
  | nothingSurvived
  | added
deriving DecidableEq, Repr

/-- The state-transition core of `handleAutoCaptions` (lines 162-212),
after the transcription collaborator has returned `captions` for the
selected source clip `sc`. -/
def handleAutoCaptionsCore (now : String) (sc : EditorClip)
    (captions : List Caption) (s : EditorState) : EditorState × CaptionOutcome :=
  if captions = [] then (s, CaptionOutcome.emptyInput)
  else
    let newClips := alignCaptions now sc captions
    if newClips = [] then (s, CaptionOutcome.nothingSurvived)
    else ({ s with clips := s.clips ++ newClips }, CaptionOutcome.added)

/-! ## Mutation operations (App.tsx lines 121-129 and 222-236) -/

/-- Embeds `handleDelete` (lines 121-129): if a clip id is selected, keep only
the clips whose id differs and clear the selection; otherwise do
nothing. -/
def handleDelete (s : EditorState) : EditorState :=
  match s.selectedClipId with
  | none => s
  | some sid =>
    { s with
      clips := s.clips.filter (fun c => decide (c.id ≠ sid))
      selectedClipId := none }

/-- Embeds `addToTimeline` (lines 222-236): unconditionally append a clip with
`duration = 5`, `startTime = editorState.currentTime`, `offset = 0`.
`now` stands for the `Date.now().toString()` id. -/
def addToTimeline (now : String) (src : String) (type : ClipType)
    (s : EditorState) : EditorState :=
  let newClip : EditorClip :=
    { id := now
      type := type
      src := src
      name := if type = ClipType.image then "Generated Image" else "Video Clip"
      duration := 5
      startTime := s.currentTime
      offset := 0 }
  { s with clips := s.clips ++ [newClip] }

/-! ## Shared concrete clips for examples -/

/-- A concrete video source clip with trim window offset 2, duration 4,
placed at timeline position `tl`. -/
def trimmedSrcClip (tl : ℚ) : EditorClip :=
  { id := "v1", type := ClipType.video, src := "blob:v", name := "clip.mp4"
    duration := 4, startTime := tl, offset := 2 }

/-- A concrete video clip occupying timeline interval `[0, 10)`. -/
def vidClip : EditorClip :=
  { id := "v", type := ClipType.video, src := "blob:v", name := "video"
    duration := 10, startTime := 0, offset := 0 }

/-- A concrete text clip occupying timeline interval `[3, 5)`. -/
def txtClip : EditorClip :=
  { id := "t", type := ClipType.text, src := "", name := "hello"
    duration := 2, startTime := 3, offset := 0 }

/-! ## Helper lemmas -/

/-- On a list split as `pre ++ c :: post` where nothing in `pre` satisfies
the predicate and `c` does, `find?` returns `c`. -/
theorem find_eq_of_earlier_false {α : Type} (p : α → Bool) (pre : List α)
    (c : α) (post : List α) (hpre : ∀ x ∈ pre, p x = false) (hc : p c = true) :
    (pre ++ c :: post).find? p = some c := by
  induction pre with
  | nil => simp [List.find?, hc]
  | cons a l ih =>
    have ha : p a = false := hpre a (by simp)
    rw [List.cons_append, List.find?]
    rw [ha]
    exact ih (fun x hx => hpre x (by simp [hx]))

/-- Characterization of a successful `alignCap`: the fields of the
emitted text clip. -/
theorem alignCap_eq_some {now : String} {sc : EditorClip} {idx : Nat}
    {cap : Caption} {c : EditorClip} (h : alignCap now sc idx cap = some c) :
    c.type = ClipType.text ∧ c.src = "" ∧ c.offset = 0 ∧ c.name = cap.text ∧
    c.duration = min sc.duration (cap.endTime - sc.offset) -
      max 0 (cap.startTime - sc.offset) ∧
    c.startTime = sc.startTime + max 0 (cap.startTime - sc.offset) ∧
    0 < c.duration := by
  simp only [alignCap] at h
  split at h
  next hd => exact absurd h (by simp)
  next hd =>
    push_neg at hd
    injection h with h2
    subst h2
    refine ⟨rfl, rfl, rfl, rfl, rfl, rfl, ?_⟩
    exact hd

/-- Every clip produced by the aligner loop comes from some caption of the
input via `alignCap`. -/
theorem mem_alignLoop {now : String} {sc : EditorClip} {c : EditorClip} :
    ∀ {idx : Nat} {caps : List Caption}, c ∈ alignLoop now sc idx caps →
      ∃ i cap, cap ∈ caps ∧ alignCap now sc i cap = some c := by
  intro idx caps
  induction caps generalizing idx with
  | nil => intro h; simp [alignLoop] at h
  | cons cap rest ih =>
    intro h
    rw [alignLoop] at h
    cases hc : alignCap now sc idx cap with
    | some c0 =>
      rw [hc] at h
      simp only at h
      rcases List.mem_cons.mp h with h1 | h1
      · exact ⟨idx, cap, List.mem_cons_self cap rest, by rw [hc, h1]⟩
      · obtain ⟨i, cap2, hm, he⟩ := ih h1
        exact ⟨i, cap2, List.mem_cons_of_mem _ hm, he⟩
    | none =>
      rw [hc] at h
      simp only at h
      obtain ⟨i, cap2, hm, he⟩ := ih h
      exact ⟨i, cap2, List.mem_cons_of_mem _ hm, he⟩

/-- The names of the clips produced by the aligner loop form a sublist
(order-preserving selection) of the texts of the captions it was given. -/
theorem alignLoop_names_sublist (now : String) (sc : EditorClip) :
    ∀ (idx : Nat) (caps : List Caption),
      List.Sublist ((alignLoop now sc idx caps).map (fun c => c.name))
        (caps.map (fun cap => cap.text)) := by
  intro idx caps
  induction caps generalizing idx with
  | nil => simp [alignLoop]
  | cons cap rest ih =>
    rw [alignLoop]
    cases hc : alignCap now sc idx cap with
    | some c0 =>
      simp only [List.map_cons]
      have hname : c0.name = cap.text := (alignCap_eq_some hc).2.2.2.1
      rw [hname]
      exact List.Sublist.cons₂ cap.text (ih (idx + 1))
    | none =>
      simp only [List.map_cons]
      exact List.Sublist.cons cap.text (ih (idx + 1))

/-- An editor state with an empty clip store. -/
def emptyEditorState : EditorState :=
  { currentTime := 0, duration := 0, isPlaying := false
    selectedClipId := none, clips := [], zoomLevel := 1 }

/-! ## Claim theorems -/

/-- Appending a caption that `alignCap` always rejects to the end of the
loop's input leaves the emitted clips unchanged. -/
theorem alignLoop_append_none {now : String} {sc : EditorClip} {cap : Caption}
    (hnone : ∀ i, alignCap now sc i cap = none) :
    ∀ (idx : Nat) (l : List Caption),
      alignLoop now sc idx (l ++ [cap]) = alignLoop now sc idx l := by
  intro idx l
  induction l generalizing idx with
  | nil =>
    simp [alignLoop, hnone idx]
  | cons a l ih =>
    rw [List.cons_append, alignLoop, alignLoop]
    cases h : alignCap now sc idx a with
    | some c =>
      rw [ih (idx + 1)]
    | none =>
      exact ih (idx + 1)

/-- C9 (amended): for every source clip and every malformed caption span
with `startTime >= endTime`, the caption aligner rejects that span — no
clip (in particular none with negative or zero duration) is ever emitted
for it — but the rejection is SILENT, with no diagnostic: the span falls
through the degenerate-duration check, and the observable result of the
caption operation on a non-empty input is identical with or without the
malformed span present. -/
theorem C9_malformed_silently_rejected (now : String) (sc : EditorClip)
    (idx : Nat) (cap : Caption) (caps : List Caption) (s : EditorState)
    (hmal : cap.endTime ≤ cap.startTime) :
    alignCap now sc idx cap = none ∧
    alignCaptions now sc [cap] = [] ∧
    alignCaptions now sc (caps ++ [cap]) = alignCaptions now sc caps ∧
    (caps ≠ [] → handleAutoCaptionsCore now sc (caps ++ [cap]) s =
      handleAutoCaptionsCore now sc caps s) := by
  have h1 : min sc.duration (cap.endTime - sc.offset) ≤ cap.endTime - sc.offset :=
    min_le_right _ _
  have h2 : cap.startTime - sc.offset ≤ max 0 (cap.startTime - sc.offset) :=
    le_max_right _ _
  have hd : min sc.duration (cap.endTime - sc.offset) -
      max 0 (cap.startTime - sc.offset) ≤ 0 := by linarith
  have hnone : ∀ i, alignCap now sc i cap = none := by
    intro i
    simp only [alignCap]
    rw [if_pos hd]
  have halign : ∀ cs : List Caption,
      alignCaptions now sc (cs ++ [cap]) = alignCaptions now sc cs := by
    intro cs
    unfold alignCaptions
    rw [List.filter_append]
    by_cases hov : capOverlap sc cap = true
    · rw [show List.filter (capOverlap sc) [cap] = [cap] by
        simp [List.filter, hov]]
      exact alignLoop_append_none hnone 0 _
    · simp only [Bool.not_eq_true] at hov
      rw [show List.filter (capOverlap sc) [cap] = [] by
        simp [List.filter, hov]]
      rw [List.append_nil]
  refine ⟨hnone idx, ?_, halign caps, ?_⟩
  · have h0 := halign []
    simpa using h0
  · intro hne
    have hne2 : caps ++ [cap] ≠ [] := by simp
    simp only [handleAutoCaptionsCore, hne, hne2, halign caps, if_neg]

/-- Witness for C9: against the trimmed clip, appending the malformed
span `{5, 3}` after the well-formed `{3, 5}` changes nothing observable. -/
theorem C9_witness :
    alignCap "N" (trimmedSrcClip 7) 1 ⟨5, 3, "x"⟩ = none ∧
    handleAutoCaptionsCore "N" (trimmedSrcClip 7)
        [⟨3, 5, "ok"⟩, ⟨5, 3, "x"⟩] emptyEditorState =
      handleAutoCaptionsCore "N" (trimmedSrcClip 7)
        [⟨3, 5, "ok"⟩] emptyEditorState := by
  have h := C9_malformed_silently_rejected "N" (trimmedSrcClip 7) 1 ⟨5, 3, "x"⟩
    [⟨3, 5, "ok"⟩] emptyEditorState (by norm_num)
  exact ⟨h.1, h.2.2.2 (by simp)⟩

/-- Counterexample for C9 as stated: the malformed span `{5, 3}` passes
the overlap filter (5 < 2 + 4 and 3 > 2), is then dropped by the silent
`duration <= 0` check, and the program's entire observable result — final
state and reported outcome — is identical whether or not the malformed
span was in the input: no diagnostic signals the skip, refuting "skipping
it with a diagnostic rather than accepting it silently". -/
theorem C9_counterexample :
    capOverlap (trimmedSrcClip 7) ⟨5, 3, "x"⟩ = true ∧
    (3:ℚ) ≤ 5 ∧
    handleAutoCaptionsCore "N" (trimmedSrcClip 7)
        [⟨3, 5, "ok"⟩, ⟨5, 3, "x"⟩] emptyEditorState =
      handleAutoCaptionsCore "N" (trimmedSrcClip 7)
        [⟨3, 5, "ok"⟩] emptyEditorState := by
  refine ⟨?_, by norm_num, ?_⟩
  · simp only [capOverlap, trimmedSrcClip, decide_eq_true_eq]
    norm_num
  · norm_num [handleAutoCaptionsCore, alignCaptions, alignLoop, alignCap,
      capOverlap, trimmedSrcClip, List.filter, emptyEditorState]
    simp

/-- C10: every clip emitted by the caption aligner is a text clip with
empty source, zero offset and strictly positive duration, its timeline
interval is contained in the source clip's timeline interval, and the
emitted clips keep the relative order of their originating captions
(their labels form a sublist of the input texts). -/
theorem C10_emitted_clip_invariants (now : String) (sc : EditorClip)
    (caps : List Caption) (hst : 0 ≤ sc.startTime) :
    (∀ c ∈ alignCaptions now sc caps,
      c.type = ClipType.text ∧ c.src = "" ∧ c.offset = 0 ∧ 0 < c.duration ∧
      sc.startTime ≤ c.startTime ∧
      c.startTime + c.duration ≤ sc.startTime + sc.duration) ∧
    List.Sublist ((alignCaptions now sc caps).map (fun c => c.name))
      (caps.map (fun cap => cap.text)) := by
  constructor
  · intro c hm
    obtain ⟨i, cap, hmem, he⟩ :=
      mem_alignLoop (show c ∈ alignLoop now sc 0 (caps.filter (capOverlap sc)) from hm)
    obtain ⟨ht, hsrc, hoff, hname, hdur, hstart, hpos⟩ := alignCap_eq_some he
    refine ⟨ht, hsrc, hoff, hpos, ?_, ?_⟩
    · rw [hstart]
      have hmax : (0:ℚ) ≤ max 0 (cap.startTime - sc.offset) := le_max_left _ _
      linarith
    · rw [hstart, hdur]
      have hmin : min sc.duration (cap.endTime - sc.offset) ≤ sc.duration :=
        min_le_left _ _
      linarith
  · have h1 := alignLoop_names_sublist now sc 0 (caps.filter (capOverlap sc))
    have h2 : List.Sublist ((caps.filter (capOverlap sc)).map (fun cap => cap.text))
        (caps.map (fun cap => cap.text)) :=
      List.Sublist.map _ (List.filter_sublist caps)
    exact h1.trans h2

/-- Witness for C10 on a concrete source clip and caption list. -/
theorem C10_witness :
    (∀ c ∈ alignCaptions "N" (trimmedSrcClip 7) [⟨5, 8, "a"⟩],
      c.type = ClipType.text ∧ c.src = "" ∧ c.offset = 0 ∧ 0 < c.duration ∧
      (trimmedSrcClip 7).startTime ≤ c.startTime ∧
      c.startTime + c.duration ≤
        (trimmedSrcClip 7).startTime + (trimmedSrcClip 7).duration) ∧
    List.Sublist
      ((alignCaptions "N" (trimmedSrcClip 7) [⟨5, 8, "a"⟩]).map (fun c => c.name))
      (([⟨5, 8, "a"⟩] : List Caption).map (fun cap => cap.text)) :=
  C10_emitted_clip_invariants "N" (trimmedSrcClip 7) [⟨5, 8, "a"⟩]
    (by norm_num [trimmedSrcClip])

/-- C1 (amended): the aligner keeps a well-formed caption span iff
`startTime < offset + duration` and `endTime > offset`; a kept span is
re-projected by subtracting the offset, clamped to `[0, duration]`,
dropped when the clamped length is non-positive, and otherwise emitted as
a text clip at `sourceClip.timelineStart + clampedStart` with duration
`clampedEnd - clampedStart` and the caption text as label.  The caption
`{5, 8}` against offset 2 and duration 4 yields a clip at
`timelineStart + 3` of duration 1; `{0, 1}` is dropped; `{6, 9}` is also
dropped, but by the overlap test (its start equals `offset + duration`),
not as degenerate after clamping. -/
theorem C1_caption_alignment (now : String) (sc : EditorClip) (idx : Nat)
    (cap : Caption) (tl : ℚ) (hwf : cap.startTime < cap.endTime) :
    (capOverlap sc cap = true ↔
      (cap.startTime < sc.offset + sc.duration ∧ sc.offset < cap.endTime)) ∧
    (min sc.duration (cap.endTime - sc.offset) - max 0 (cap.startTime - sc.offset) ≤ 0 →
      alignCap now sc idx cap = none) ∧
    (0 < min sc.duration (cap.endTime - sc.offset) - max 0 (cap.startTime - sc.offset) →
      alignCap now sc idx cap = some
        { id := "caption-" ++ now ++ "-" ++ toString idx
          type := ClipType.text
          src := ""
          name := cap.text
          duration := min sc.duration (cap.endTime - sc.offset) -
            max 0 (cap.startTime - sc.offset)
          startTime := sc.startTime + max 0 (cap.startTime - sc.offset)
          offset := 0 }) ∧
    alignCaptions "N" (trimmedSrcClip tl) [⟨5, 8, "a"⟩] =
      [{ id := "caption-N-0", type := ClipType.text, src := "", name := "a"
         duration := 1, startTime := tl + 3, offset := 0 }] ∧
    alignCaptions "N" (trimmedSrcClip tl) [⟨0, 1, "b"⟩] = [] ∧
    capOverlap (trimmedSrcClip tl) ⟨6, 9, "c"⟩ = false ∧
    alignCaptions "N" (trimmedSrcClip tl) [⟨6, 9, "c"⟩] = [] := by
  refine ⟨?_, ?_, ?_, ?_, ?_, ?_, ?_⟩
  · simp [capOverlap]
  · intro hd
    simp only [alignCap]
    rw [if_pos hd]
  · intro hd
    simp only [alignCap]
    rw [if_neg (by linarith)]
  · norm_num [alignCaptions, alignLoop, alignCap, capOverlap, trimmedSrcClip]
    rfl
  · norm_num [alignCaptions, alignLoop, alignCap, capOverlap, trimmedSrcClip]
  · norm_num [capOverlap, trimmedSrcClip]
  · norm_num [alignCaptions, alignLoop, alignCap, capOverlap, trimmedSrcClip]

/-- Witness for C1 at a concrete well-formed caption and source clip:
the kept span `{5, 8}` is emitted with the computed fields. -/
theorem C1_witness :
    alignCap "N" (trimmedSrcClip 7) 0 ⟨5, 8, "a"⟩ = some
      { id := "caption-" ++ "N" ++ "-" ++ toString 0
        type := ClipType.text
        src := ""
        name := "a"
        duration := min (trimmedSrcClip 7).duration
            ((8:ℚ) - (trimmedSrcClip 7).offset) -
          max 0 ((5:ℚ) - (trimmedSrcClip 7).offset)
        startTime := (trimmedSrcClip 7).startTime +
          max 0 ((5:ℚ) - (trimmedSrcClip 7).offset)
        offset := 0 } := by
  have h := C1_caption_alignment "N" (trimmedSrcClip 7) 0 ⟨5, 8, "a"⟩ 7
    (by norm_num)
  have hd : (0:ℚ) < min (trimmedSrcClip 7).duration
      ((8:ℚ) - (trimmedSrcClip 7).offset) - max 0 ((5:ℚ) - (trimmedSrcClip 7).offset) := by
    norm_num [trimmedSrcClip]
  exact h.2.2.1 hd

/-- Counterexample for C1 as stated: the caption `{6, 9}` against
offset 2, duration 4 is dropped by the overlap test itself
(`6 < 2 + 4` fails), so it never reaches the clamping stage — it is not
"dropped as degenerate after clamping". -/
theorem C1_counterexample :
    capOverlap (trimmedSrcClip 7) ⟨6, 9, "c"⟩ = false ∧
    alignCaptions "N" (trimmedSrcClip 7) [⟨6, 9, "c"⟩] = [] := by
  constructor
  · norm_num [capOverlap, trimmedSrcClip]
  · norm_num [alignCaptions, alignLoop, alignCap, capOverlap, trimmedSrcClip]

/-- C7: an empty caption input and a non-empty input in which nothing
survives trimming are reported as two distinct outcomes
(`emptyInput` vs `nothingSurvived`); in both cases the clip store is left
unchanged, and new clips are appended exactly when at least one caption
survives. -/
theorem C7_outcome_distinction (now : String) (sc : EditorClip)
    (caps : List Caption) (s : EditorState) :
    (caps = [] →
      handleAutoCaptionsCore now sc caps s = (s, CaptionOutcome.emptyInput)) ∧
    (caps ≠ [] → alignCaptions now sc caps = [] →
      handleAutoCaptionsCore now sc caps s = (s, CaptionOutcome.nothingSurvived)) ∧
    (alignCaptions now sc caps ≠ [] →
      handleAutoCaptionsCore now sc caps s =
        ({ s with clips := s.clips ++ alignCaptions now sc caps },
          CaptionOutcome.added)) ∧
    CaptionOutcome.nothingSurvived ≠ CaptionOutcome.emptyInput ∧
    ((handleAutoCaptionsCore now sc caps s).2 ≠ CaptionOutcome.added →
      (handleAutoCaptionsCore now sc caps s).1 = s) := by
  have hempty : alignCaptions now sc [] = [] := rfl
  refine ⟨?_, ?_, ?_, by simp, ?_⟩
  · intro h
    subst h
    simp [handleAutoCaptionsCore]
  · intro h1 h2
    simp [handleAutoCaptionsCore, h1, h2]
  · intro h
    have hc : caps ≠ [] := by
      intro he
      exact h (he ▸ hempty)
    simp [handleAutoCaptionsCore, hc, h]
  · intro h
    by_cases h1 : caps = []
    · simp [handleAutoCaptionsCore, h1]
    · by_cases h2 : alignCaptions now sc caps = []
      · simp [handleAutoCaptionsCore, h1, h2]
      · exfalso
        apply h
        simp [handleAutoCaptionsCore, h1, h2]

/-- Witness for C7: against the concrete trimmed clip, the out-of-window
caption list `[{0,1}]` gives the `nothingSurvived` outcome with the state
unchanged, while the empty list gives `emptyInput`. -/
theorem C7_witness :
    handleAutoCaptionsCore "N" (trimmedSrcClip 7) [⟨0, 1, "b"⟩] emptyEditorState =
      (emptyEditorState, CaptionOutcome.nothingSurvived) ∧
    handleAutoCaptionsCore "N" (trimmedSrcClip 7) [] emptyEditorState =
      (emptyEditorState, CaptionOutcome.emptyInput) := by
  constructor
  · exact (C7_outcome_distinction "N" (trimmedSrcClip 7) [⟨0, 1, "b"⟩]
      emptyEditorState).2.1 (by simp)
      (by norm_num [alignCaptions, alignLoop, alignCap, capOverlap, trimmedSrcClip])
  · exact (C7_outcome_distinction "N" (trimmedSrcClip 7) [] emptyEditorState).1 rfl

/-- A concrete image clip occupying timeline interval `[0, 10)`. -/
def imgClip : EditorClip :=
  { id := "i", type := ClipType.image, src := "blob:i", name := "image"
    duration := 10, startTime := 0, offset := 0 }

/-- A second concrete video clip also occupying `[0, 10)`, inserted after
`vidClip`. -/
def vidClipB : EditorClip :=
  { id := "w", type := ClipType.video, src := "blob:w", name := "video2"
    duration := 10, startTime := 0, offset := 0 }

/-- Builds an `EditorState` from its six fields, in declaration order. -/
def mkState (t d : ℚ) (p : Bool) (sel : Option String)
    (cs : List EditorClip) (z : ℚ) : EditorState :=
  { currentTime := t, duration := d, isPlaying := p
    selectedClipId := sel, clips := cs, zoomLevel := z }

/-- C2 (amended): the active visual clip is chosen among clips of kind
video only — an image clip is never selected — whose half-open interval
`[timelineStart, timelineStart + timelineDuration)` contains the time,
and when several such clips overlap the FIRST match in collection order
is selected. -/
theorem C2_active_visual_selection :
    (∀ (s : EditorState) (c : EditorClip), activeClip s = some c →
      c ∈ s.clips ∧ c.type = ClipType.video ∧
      c.startTime ≤ s.currentTime ∧ s.currentTime < c.startTime + c.duration) ∧
    (∀ (t d : ℚ) (p : Bool) (sel : Option String) (z : ℚ)
      (pre post : List EditorClip) (c : EditorClip),
      (∀ x ∈ pre, isActiveVideo t x = false) → isActiveVideo t c = true →
      activeClip (mkState t d p sel (pre ++ c :: post) z) = some c) ∧
    (∀ (s : EditorState) (c : EditorClip), c.type = ClipType.image →
      activeClip s ≠ some c) := by
  have hmain : ∀ (s : EditorState) (c : EditorClip), activeClip s = some c →
      c ∈ s.clips ∧ c.type = ClipType.video ∧
      c.startTime ≤ s.currentTime ∧ s.currentTime < c.startTime + c.duration := by
    intro s c h
    have hp := List.find?_some h
    have hm := List.mem_of_find?_eq_some h
    simp only [isActiveVideo, decide_eq_true_eq] at hp
    exact ⟨hm, hp.2.2, hp.1, hp.2.1⟩
  refine ⟨hmain, ?_, ?_⟩
  · intro t d p sel z pre post c hpre hc
    exact find_eq_of_earlier_false _ pre c post hpre hc
  · intro s c himg h
    obtain ⟨-, hv, -, -⟩ := hmain s c h
    rw [hv] at himg
    exact ClipType.noConfusion himg

/-- Witness for C2: with an earlier inactive (image) clip in front, the
first video clip whose interval contains the time is selected. -/
theorem C2_witness :
    activeClip (mkState 4 30 false none ([imgClip] ++ vidClip :: []) 1) =
      some vidClip := by
  refine C2_active_visual_selection.2.1 4 30 false none 1 [imgClip] [] vidClip ?_ ?_
  · intro x hx
    rw [List.mem_singleton] at hx
    subst hx
    simp [isActiveVideo, imgClip]
  · simp only [isActiveVideo, vidClip, decide_eq_true_eq]
    norm_num

/-- Counterexample for C2 as stated: with two overlapping video clips the
code selects the FIRST in collection order, not the most recently
inserted; and an image clip whose interval contains the time is not
selected at all. -/
theorem C2_counterexample :
    activeClip (mkState 4 30 false none [vidClip, vidClipB] 1) = some vidClip ∧
    vidClip ≠ vidClipB ∧
    activeClip (mkState 4 30 false none [imgClip] 1) = none := by
  have h1 : isActiveVideo 4 vidClip = true := by
    simp only [isActiveVideo, vidClip, decide_eq_true_eq]
    norm_num
  have h2 : isActiveVideo 4 imgClip = false := by
    simp [isActiveVideo, imgClip]
  refine ⟨?_, ?_, ?_⟩
  · simp [activeClip, mkState, List.find?, h1]
  · simp [vidClip, vidClipB]
  · simp [activeClip, mkState, List.find?, h2]

/-- C3: when no video/image clip's interval contains the time, the
projector falls back to the first video-kind clip of the collection
regardless of its interval (none when no video clip exists, in which case
the player source is also null); and on an empty clip collection the
projection at any time yields no active visual clip and no captions. -/
theorem C3_fallback_first_video (s : EditorState)
    (h : ∀ c ∈ s.clips, c.type = ClipType.video ∨ c.type = ClipType.image →
      ¬(c.startTime ≤ s.currentTime ∧ s.currentTime < c.startTime + c.duration)) :
    activeVisualClip s = firstVideo s.clips ∧
    (firstVideo s.clips = none → playerSrc s = none) ∧
    (∀ (t d : ℚ) (p : Bool) (sel : Option String) (z : ℚ),
      activeVisualClip (mkState t d p sel [] z) = none ∧
      activeCaptions (mkState t d p sel [] z) = []) := by
  have hnone : activeClip s = none := by
    unfold activeClip
    rw [List.find?_eq_none]
    intro x hx
    simp only [isActiveVideo, decide_eq_true_eq]
    rintro ⟨h1, h2, h3⟩
    exact h x hx (Or.inl h3) ⟨h1, h2⟩
  refine ⟨?_, ?_, ?_⟩
  · unfold activeVisualClip
    rw [hnone]
  · intro hfv
    unfold playerSrc
    rw [hnone, hfv]
  · intro t d p sel z
    exact ⟨rfl, rfl⟩

/-- Witness for C3: at time 20, outside the only video clip's interval
`[0, 10)`, the projector falls back to that first video clip. -/
theorem C3_witness :
    activeVisualClip (mkState 20 30 false none [vidClip] 1) =
      firstVideo [vidClip] := by
  refine (C3_fallback_first_video (mkState 20 30 false none [vidClip] 1) ?_).1
  intro c hc hk
  rw [show (mkState 20 30 false none [vidClip] 1).clips = [vidClip] from rfl] at hc
  rw [List.mem_singleton] at hc
  subst hc
  rw [show (mkState 20 30 false none [vidClip] 1).currentTime = 20 from rfl]
  simp only [vidClip]
  norm_num

/-- C4: the active captions are exactly the labels of the text-kind clips
whose half-open interval contains the time, in collection order and
without de-duplication; on the two-track example (video `[0,10)`, text
`[3,5)`) projecting at time 4 yields the video clip and exactly one
caption, and at time 6 the video clip and no caption. -/
theorem C4_active_captions_projection :
    (∀ s : EditorState, activeCaptions s =
      (s.clips.filter (fun c =>
        decide (c.type = ClipType.text ∧ c.startTime ≤ s.currentTime ∧
          s.currentTime < c.startTime + c.duration))).map (fun c => c.name)) ∧
    activeVisualClip (mkState 4 30 false none [vidClip, txtClip] 1) =
      some vidClip ∧
    activeCaptions (mkState 4 30 false none [vidClip, txtClip] 1) = ["hello"] ∧
    activeVisualClip (mkState 6 30 false none [vidClip, txtClip] 1) =
      some vidClip ∧
    activeCaptions (mkState 6 30 false none [vidClip, txtClip] 1) = [] ∧
    activeCaptions (mkState 4 30 false none [txtClip, txtClip] 1) =
      ["hello", "hello"] := by
  have hv4 : isActiveVideo 4 vidClip = true := by
    simp only [isActiveVideo, vidClip, decide_eq_true_eq]
    norm_num
  have hv6 : isActiveVideo 6 vidClip = true := by
    simp only [isActiveVideo, vidClip, decide_eq_true_eq]
    norm_num
  have ht4 : isActiveText 4 txtClip = true := by
    simp only [isActiveText, txtClip, decide_eq_true_eq]
    norm_num
  have ht6 : isActiveText 6 txtClip = false := by
    simp only [isActiveText, txtClip]
    norm_num
  have hvt4 : isActiveText 4 vidClip = false := by
    simp [isActiveText, vidClip]
  have hvt6 : isActiveText 6 vidClip = false := by
    simp [isActiveText, vidClip]
  refine ⟨fun s => rfl, ?_, ?_, ?_, ?_, ?_⟩
  · simp [activeVisualClip, activeClip, mkState, List.find?, hv4]
  · simp only [activeCaptions, mkState, List.filter, hvt4, ht4]
    simp [txtClip]
  · simp [activeVisualClip, activeClip, mkState, List.find?, hv6]
  · simp [activeCaptions, mkState, List.filter, hvt6, ht6]
  · simp only [activeCaptions, mkState, List.filter, ht4]
    simp [txtClip]

/-- C8: the timeline projector is deterministic and depends only on the
clip collection and the time: two states agreeing on those fields project
to the same active clip, the same player source and the same caption
sequence (the projector is a pure function and never alters the clips). -/
theorem C8_projector_deterministic (s1 s2 : EditorState)
    (hc : s1.clips = s2.clips) (ht : s1.currentTime = s2.currentTime) :
    activeClip s1 = activeClip s2 ∧ activeVisualClip s1 = activeVisualClip s2 ∧
    playerSrc s1 = playerSrc s2 ∧ activeCaptions s1 = activeCaptions s2 := by
  have h1 : activeClip s1 = activeClip s2 := by
    unfold activeClip
    rw [hc, ht]
  refine ⟨h1, ?_, ?_, ?_⟩
  · unfold activeVisualClip firstVideo
    rw [h1, hc]
  · unfold playerSrc firstVideo
    rw [h1, hc]
  · unfold activeCaptions
    rw [hc, ht]

/-- Witness for C8: two states with the same clips and time but opposite
playing flags project identically. -/
theorem C8_witness :
    activeClip (mkState 4 30 false none [vidClip, txtClip] 1) =
      activeClip (mkState 4 99 true (some "v") [vidClip, txtClip] 2) ∧
    activeVisualClip (mkState 4 30 false none [vidClip, txtClip] 1) =
      activeVisualClip (mkState 4 99 true (some "v") [vidClip, txtClip] 2) ∧
    playerSrc (mkState 4 30 false none [vidClip, txtClip] 1) =
      playerSrc (mkState 4 99 true (some "v") [vidClip, txtClip] 2) ∧
    activeCaptions (mkState 4 30 false none [vidClip, txtClip] 1) =
      activeCaptions (mkState 4 99 true (some "v") [vidClip, txtClip] 2) :=
  C8_projector_deterministic (mkState 4 30 false none [vidClip, txtClip] 1)
    (mkState 4 99 true (some "v") [vidClip, txtClip] 2) rfl rfl

/-- Counterexample for C5 as stated: with the playhead at -1, the insert
operation stores a clip with negative `timelineStart` without any
rejection — the code has no `InvalidClip` failure path. -/
theorem C5_counterexample :
    (addToTimeline "id1" "blob:u" ClipType.video (mkState (-1) 0 false none [] 1)).clips =
      [{ id := "id1", type := ClipType.video, src := "blob:u"
         name := "Video Clip", duration := 5, startTime := -1, offset := 0 }] ∧
    ((-1 : ℚ) < 0) := by
  constructor
  · simp [addToTimeline, mkState]
  · norm_num

/-- C5 (amended): the insert operation performs no validation and cannot
fail: for every state it appends exactly one clip, with duration 5 and
`timelineStart` equal to the current playhead time — even when that time
is negative — leaving every other state field unchanged. -/
theorem C5_insert_no_validation (now src : String) (ty : ClipType)
    (s : EditorState) :
    addToTimeline now src ty s = { s with clips := s.clips ++
      [{ id := now, type := ty, src := src
         name := if ty = ClipType.image then "Generated Image" else "Video Clip"
         duration := 5, startTime := s.currentTime, offset := 0 }] } ∧
    (addToTimeline now src ty s).clips.length = s.clips.length + 1 := by
  constructor
  · rfl
  · simp [addToTimeline]

/-- Counterexample for C6 as stated: deleting when the selected id
matches no clip is not a no-op — the clip list is unchanged but the
selection is still cleared. -/
theorem C6_counterexample :
    (handleDelete (mkState 0 0 false (some "zzz") [vidClip] 1)).clips =
      [vidClip] ∧
    (handleDelete (mkState 0 0 false (some "zzz") [vidClip] 1)).selectedClipId =
      none ∧
    handleDelete (mkState 0 0 false (some "zzz") [vidClip] 1) ≠
      mkState 0 0 false (some "zzz") [vidClip] 1 := by
  refine ⟨?_, rfl, ?_⟩
  · simp [handleDelete, mkState, vidClip]
  · intro h
    have h2 := congrArg EditorState.selectedClipId h
    simp [handleDelete, mkState] at h2

/-- C6 (amended): the delete operation removes the clip whose id matches
the selected id if one is selected; it is a no-op when nothing is
selected; whenever a clip id is selected the selection is cleared
afterwards — even when the selected id matches no clip, in which case
the clip list itself is unchanged. -/
theorem C6_delete_semantics (s : EditorState) :
    (s.selectedClipId = none → handleDelete s = s) ∧
    (∀ sid, s.selectedClipId = some sid →
      handleDelete s = { s with
        clips := s.clips.filter (fun c => decide (c.id ≠ sid))
        selectedClipId := none }) ∧
    (∀ sid, s.selectedClipId = some sid →
      (handleDelete s).selectedClipId = none) ∧
    (∀ sid, s.selectedClipId = some sid → (∀ c ∈ s.clips, c.id ≠ sid) →
      (handleDelete s).clips = s.clips) := by
  refine ⟨?_, ?_, ?_, ?_⟩
  · intro h
    unfold handleDelete
    rw [h]
  · intro sid h
    unfold handleDelete
    rw [h]
  · intro sid h
    unfold handleDelete
    rw [h]
  · intro sid h hall
    unfold handleDelete
    rw [h]
    simp only
    rw [List.filter_eq_self.mpr]
    intro c hc
    simpa using hall c hc

/-- Witness for C6: deleting with no selection is a no-op, and deleting
the selected text clip removes exactly it and clears the selection. -/
theorem C6_witness :
    handleDelete emptyEditorState = emptyEditorState ∧
    handleDelete (mkState 0 0 false (some "t") [vidClip, txtClip] 1) =
      { mkState 0 0 false (some "t") [vidClip, txtClip] 1 with
        clips := [vidClip, txtClip].filter (fun c => decide (c.id ≠ "t"))
        selectedClipId := none } := by
  constructor
  · exact (C6_delete_semantics emptyEditorState).1 rfl
  · exact (C6_delete_semantics
      (mkState 0 0 false (some "t") [vidClip, txtClip] 1)).2.1 "t" rfl
